import Mathlib

/-!
Verification of the atp-router core against its specification.

The Rust sources embedded here are:
  crates/atp-schema/src/lib.rs      (frame model, fragmentation, reassembly, checksums)
  crates/atp-router/src/main.rs     (window controller, ingress gate, request processor)
  crates/atp-router/src/consensus.rs (normalize / embed / greedy clustering)

Modelling conventions:
  - Rust machine integers are modelled as Nat; wrapping arithmetic is written
    with an explicit `% 2^w` at the sites where the Rust release build wraps.
  - Rust `String` values are Lean `String`s, except where the code operates on
    raw UTF-8 bytes (fragmentation, JSON string contents, hashing), where a
    `List Nat` of byte values is used.
  - `Instant` timestamps are Nat milliseconds; `elapsed` is truncated
    subtraction, and `Duration::from_secs(2)` is 2000.
  - f32 vector entries in the consensus engine are exact token counts before
    normalization, so they are modelled as Nat; the cosine-threshold test is
    written in exact integer arithmetic (see `simTest`).  f32 rounding is
    abstracted to exact arithmetic throughout.
-/

/-! ### Byte-level helpers -/

/-- UTF-8 encoding of a Unicode scalar value, as byte values. -/
def utf8EncodeChar (c : Nat) : List Nat :=
  if c < 128 then [c]
  else if c < 2048 then [192 + c / 64, 128 + c % 64]
  else if c < 65536 then [224 + c / 4096, 128 + (c / 64) % 64, 128 + c % 64]
  else [240 + c / 262144, 128 + (c / 4096) % 64, 128 + (c / 64) % 64, 128 + c % 64]

/-- The UTF-8 bytes of a Lean string (models Rust `str::as_bytes`). -/
def strBytes (s : String) : List Nat :=
  (s.data.map (fun c => utf8EncodeChar c.toNat)).flatten

/-- Decimal ASCII digits of a natural number (models integer JSON rendering). -/
def natDecimal (n : Nat) : List Nat :=
  (Nat.toDigits 10 n).map Char.toNat

/-- Split a byte list into consecutive chunks of `k` bytes
(models Rust `slice::chunks(k)`; the `k = 0` case, which panics in Rust,
is given the harmless value `[l]`). -/
def chunksOf (k : Nat) (l : List Nat) : List (List Nat) :=
  if l = [] then []
  else if k = 0 then [l]
  else l.take k :: chunksOf k (l.drop k)
termination_by l.length
decreasing_by
  simp only [List.length_drop]
  have hl : 0 < l.length := List.length_pos.mpr (by assumption)
  omega

mutual

/-- Decoder for `String::from_utf8_lossy`, returned as the UTF-8 bytes of the
resulting string.  Valid sequences are copied; an invalid byte (or truncated
sequence) is replaced by the three UTF-8 bytes of U+FFFD.  The replacement
granularity for multi-byte garbage is an approximation of the WHATWG
maximal-subpart rule; only the ASCII branch is relied upon by any theorem. -/
def utf8Lossy : List Nat → List Nat
  | [] => []
  | b :: rest => if b < 128 then b :: utf8Lossy rest else utf8LossyTail b rest
termination_by l => (l.length, 1)

def utf8LossyTail (b : Nat) (rest : List Nat) : List Nat :=
  if 194 ≤ b ∧ b ≤ 223 then
    match rest with
    | c :: rest2 =>
      if 128 ≤ c ∧ c ≤ 191 then b :: c :: utf8Lossy rest2
      else 239 :: 191 :: 189 :: utf8Lossy (c :: rest2)
    | [] => [239, 191, 189]
  else if 224 ≤ b ∧ b ≤ 239 then
    match rest with
    | c :: d :: rest2 =>
      if (128 ≤ c ∧ c ≤ 191) ∧ (128 ≤ d ∧ d ≤ 191) ∧
         (b ≠ 224 ∨ 160 ≤ c) ∧ (b ≠ 237 ∨ c ≤ 159) then
        b :: c :: d :: utf8Lossy rest2
      else 239 :: 191 :: 189 :: utf8Lossy (c :: d :: rest2)
    | [c] => 239 :: 191 :: 189 :: utf8Lossy [c]
    | [] => [239, 191, 189]
  else if 240 ≤ b ∧ b ≤ 244 then
    match rest with
    | c :: d :: e :: rest2 =>
      if (128 ≤ c ∧ c ≤ 191) ∧ (128 ≤ d ∧ d ≤ 191) ∧ (128 ≤ e ∧ e ≤ 191) ∧
         (b ≠ 240 ∨ 144 ≤ c) ∧ (b ≠ 244 ∨ c ≤ 143) then
        b :: c :: d :: e :: utf8Lossy rest2
      else 239 :: 191 :: 189 :: utf8Lossy (c :: d :: e :: rest2)
    | [c, d] => 239 :: 191 :: 189 :: utf8Lossy [c, d]
    | [c] => 239 :: 191 :: 189 :: utf8Lossy [c]
    | [] => [239, 191, 189]
  else 239 :: 191 :: 189 :: utf8Lossy rest
termination_by (rest.length + 1, 0)
end

/-! ### JSON values and their canonical serialization

`serde_json::Value` is modelled by `Json`.  An f32 number is carried as its
IEEE-754 bit pattern (`fnum`); its decimal rendering is abstracted (injective
in the bit pattern), which no claim depends on.  Objects are ordered field
lists; the declared schema order is used, which is one fixed deterministic
order as required by the spec. -/

inductive Json where
  | null : Json
  | jbool : Bool → Json
  | num : Nat → Json
  | fnum : Nat → Json
  | str : List Nat → Json
  | arr : List Json → Json
  | obj : List (String × Json) → Json

/-- JSON string escaping of one byte, per serde_json: quote and backslash get
two-character escapes, control bytes below 0x20 get `\b \t \n \f \r` or
`\u00XX`, everything else is copied. -/
def escByte (b : Nat) : List Nat :=
  if b = 34 then [92, 34]
  else if b = 92 then [92, 92]
  else if b = 8 then [92, 98]
  else if b = 9 then [92, 116]
  else if b = 10 then [92, 110]
  else if b = 12 then [92, 102]
  else if b = 13 then [92, 114]
  else if b < 32 then
    [92, 117, 48, 48,
     (if b / 16 < 10 then 48 + b / 16 else 87 + b / 16),
     (if b % 16 < 10 then 48 + b % 16 else 87 + b % 16)]
  else [b]

/-- Interleave a separator byte between byte lists (for commas). -/
def sepJoin (sep : Nat) : List (List Nat) → List Nat
  | [] => []
  | [x] => x
  | x :: y :: rest => x ++ sep :: sepJoin sep (y :: rest)

mutual
/-- Compact serialization of a `Json` value to bytes
(models `serde_json::to_vec`). -/
def jsonToBytes : Json → List Nat
  | .null => [110, 117, 108, 108]
  | .jbool true => [116, 114, 117, 101]
  | .jbool false => [102, 97, 108, 115, 101]
  | .num n => natDecimal n
  | .fnum bits => natDecimal bits
  | .str s => 34 :: (s.map escByte).flatten ++ [34]
  | .arr xs => 91 :: arrBytes xs ++ [93]
  | .obj kvs => 123 :: objBytes kvs ++ [125]

def arrBytes : List Json → List Nat
  | [] => []
  | [x] => jsonToBytes x
  | x :: y :: rest => jsonToBytes x ++ 44 :: arrBytes (y :: rest)

def objBytes : List (String × Json) → List Nat
  | [] => []
  | [kv] => 34 :: ((strBytes kv.1).map escByte).flatten ++ [34, 58] ++ jsonToBytes kv.2
  | kv :: kv2 :: rest =>
    (34 :: ((strBytes kv.1).map escByte).flatten ++ [34, 58] ++ jsonToBytes kv.2)
      ++ 44 :: objBytes (kv2 :: rest)
end

/-- First value bound to key `k` in an object field list
(models `serde_json::Map::get`). -/
def jget (kvs : List (String × Json)) (k : String) : Option Json :=
  match kvs with
  | [] => none
  | kv :: rest => if kv.1 = k then some kv.2 else jget rest k

/-! ### SHA-256 over byte lists -/

def w32 : Nat := 4294967296

def rotr32 (x n : Nat) : Nat := ((x >>> n) ||| (x <<< (32 - n))) % w32

def shr32 (x n : Nat) : Nat := x >>> n

def bsig0 (x : Nat) : Nat := (rotr32 x 2) ^^^ (rotr32 x 13) ^^^ (rotr32 x 22)
def bsig1 (x : Nat) : Nat := (rotr32 x 6) ^^^ (rotr32 x 11) ^^^ (rotr32 x 25)
def ssig0 (x : Nat) : Nat := (rotr32 x 7) ^^^ (rotr32 x 18) ^^^ (shr32 x 3)
def ssig1 (x : Nat) : Nat := (rotr32 x 17) ^^^ (rotr32 x 19) ^^^ (shr32 x 10)

def sha256K : List Nat :=
  [1116352408, 1899447441, 3049323471, 3921009573, 961987163, 1508970993,
   2453635748, 2870763221, 3624381080, 310598401, 607225278, 1426881987,
   1925078388, 2162078206, 2614888103, 3248222580, 3835390401, 4022224774,
   264347078, 604807628, 770255983, 1249150122, 1555081692, 1996064986,
   2554220882, 2821834349, 2952996808, 3210313671, 3336571891, 3584528711,
   113926993, 338241895, 666307205, 773529912, 1294757372, 1396182291,
   1695183700, 1986661051, 2177026350, 2456956037, 2730485921, 2820302411,
   3259730800, 3345764771, 3516065817, 3600352804, 4094571909, 275423344,
   430227734, 506948616, 659060556, 883997877, 958139571, 1322822218,
   1537002063, 1747873779, 1955562222, 2024104815, 2227730452, 2361852424,
   2428436474, 2756734187, 3204031479, 3329325298]

def sha256H0 : List Nat :=
  [1779033703, 3144134277, 1013904242, 2773480762,
   1359893119, 2600822924, 528734635, 1541459225]

/-- SHA-256 message padding: append 0x80, zeros, then the 64-bit big-endian
bit length. -/
def sha256Pad (msg : List Nat) : List Nat :=
  let L := msg.length
  let zeros := (119 - L % 64) % 64
  let bitLen := L * 8
  msg ++ 128 :: List.replicate zeros 0 ++
    [(bitLen >>> 56) % 256, (bitLen >>> 48) % 256, (bitLen >>> 40) % 256, (bitLen >>> 32) % 256,
     (bitLen >>> 24) % 256, (bitLen >>> 16) % 256, (bitLen >>> 8) % 256, bitLen % 256]

/-- Combine 4 bytes big-endian into a 32-bit word. -/
def word32Of (bs : List Nat) : Nat :=
  bs.foldl (fun acc b => acc * 256 + b) 0

/-- Extend 16 message words to the 64-word schedule. -/
def sha256Extend (w : List Nat) : Nat → List Nat
  | 0 => w
  | fuel + 1 =>
    let n := w.length
    let nw := (ssig1 (w.getD (n - 2) 0) + w.getD (n - 7) 0 +
               ssig0 (w.getD (n - 15) 0) + w.getD (n - 16) 0) % w32
    sha256Extend (w ++ [nw]) fuel

/-- One round of the SHA-256 compression function on an 8-word state. -/
def sha256Round (st : List Nat) (kw : Nat × Nat) : List Nat :=
  let a := st.getD 0 0
  let b := st.getD 1 0
  let c := st.getD 2 0
  let d := st.getD 3 0
  let e := st.getD 4 0
  let f := st.getD 5 0
  let g := st.getD 6 0
  let h := st.getD 7 0
  let ch := (e &&& f) ^^^ ((w32 - 1 - e) &&& g)
  let maj := (a &&& b) ^^^ (a &&& c) ^^^ (b &&& c)
  let t1 := (h + bsig1 e + ch + kw.1 + kw.2) % w32
  let t2 := (bsig0 a + maj) % w32
  [(t1 + t2) % w32, a, b, c, (d + t1) % w32, e, f, g]

/-- Compress one 64-byte block into the running hash state. -/
def sha256Block (h : List Nat) (block : List Nat) : List Nat :=
  let w16 := (chunksOf 4 block).map word32Of
  let w := sha256Extend w16 48
  let st := (sha256K.zip w).foldl sha256Round h
  (h.zip st).map (fun p => (p.1 + p.2) % w32)

/-- SHA-256 digest of a byte list, as 8 32-bit words. -/
def sha256Words (msg : List Nat) : List Nat :=
  (chunksOf 64 (sha256Pad msg)).foldl sha256Block sha256H0

/-- Lowercase hex digit byte of a value below 16. -/
def hexDigit (n : Nat) : Nat := if n < 10 then 48 + n else 87 + n

/-- Lowercase hex rendering of one 32-bit word, as 8 ASCII bytes. -/
def hexWord (x : Nat) : List Nat :=
  [hexDigit ((x >>> 28) % 16), hexDigit ((x >>> 24) % 16), hexDigit ((x >>> 20) % 16),
   hexDigit ((x >>> 16) % 16), hexDigit ((x >>> 12) % 16), hexDigit ((x >>> 8) % 16),
   hexDigit ((x >>> 4) % 16), hexDigit (x % 16)]

/-- Lowercase hex SHA-256 of a byte list (models `format!("{:x}", digest)`). -/
def sha256Hex (msg : List Nat) : String :=
  String.mk (((sha256Words msg).map hexWord).flatten.map Char.ofNat)

/-! ### The frame model (crates/atp-schema/src/lib.rs)

Struct fields keep the source names and declaration order.  `u8`/`u32`/`u64`
fields are Nat (see the header on wrapping); `Option<String>` is
`Option String`; `serde_json::Value` is `Json`.  The f32 `confidence` is
carried as its IEEE-754 bit pattern. -/

structure Window where
  max_parallel : Nat
  max_tokens : Nat
  max_usd_micros : Nat
deriving DecidableEq

structure CostEst where
  in_tokens : Nat
  out_tokens : Nat
  usd_micros : Nat
deriving DecidableEq

structure Meta where
  task_type : Option String
  languages : Option (List String)
  risk : Option String
  data_scope : Option (List String)
  trace : Option Json
  tool_permissions : Option (List String)
  environment_id : Option String
  security_groups : Option (List String)

structure Payload where
  type : String
  content : Json
  confidence : Option Nat
  cost_est : Option CostEst
  checksum : Option String
  expiry_ms : Option Nat

structure Frame where
  v : Nat
  session_id : String
  stream_id : String
  msg_seq : Nat
  frag_seq : Nat
  flags : List String
  qos : String
  ttl : Nat
  window : Window
  meta : Meta
  payload : Payload
  sig : Option String
  checksum : Option String

/-! Serde serialization of the structures to `Json` (models
`serde_json::to_value`): every field is emitted, `None` as `null`. -/

def optJson (f : α → Json) : Option α → Json
  | none => Json.null
  | some a => f a

def strListJson (xs : List String) : Json :=
  Json.arr (xs.map (fun s => Json.str (strBytes s)))

def windowToJson (w : Window) : Json :=
  Json.obj [("max_parallel", Json.num w.max_parallel),
            ("max_tokens", Json.num w.max_tokens),
            ("max_usd_micros", Json.num w.max_usd_micros)]

def costEstToJson (c : CostEst) : Json :=
  Json.obj [("in_tokens", Json.num c.in_tokens),
            ("out_tokens", Json.num c.out_tokens),
            ("usd_micros", Json.num c.usd_micros)]

def metaToJson (m : Meta) : Json :=
  Json.obj [("task_type", optJson (fun s => Json.str (strBytes s)) m.task_type),
            ("languages", optJson strListJson m.languages),
            ("risk", optJson (fun s => Json.str (strBytes s)) m.risk),
            ("data_scope", optJson strListJson m.data_scope),
            ("trace", optJson id m.trace),
            ("tool_permissions", optJson strListJson m.tool_permissions),
            ("environment_id", optJson (fun s => Json.str (strBytes s)) m.environment_id),
            ("security_groups", optJson strListJson m.security_groups)]

def payloadToJson (p : Payload) : Json :=
  Json.obj [("type", Json.str (strBytes p.type)),
            ("content", p.content),
            ("confidence", optJson Json.fnum p.confidence),
            ("cost_est", optJson costEstToJson p.cost_est),
            ("checksum", optJson (fun s => Json.str (strBytes s)) p.checksum),
            ("expiry_ms", optJson Json.num p.expiry_ms)]

/-- The serde serialization of a frame, as the top-level field list of the
resulting JSON object. -/
def frameFields (f : Frame) : List (String × Json) :=
  [("v", Json.num f.v),
   ("session_id", Json.str (strBytes f.session_id)),
   ("stream_id", Json.str (strBytes f.stream_id)),
   ("msg_seq", Json.num f.msg_seq),
   ("frag_seq", Json.num f.frag_seq),
   ("flags", strListJson f.flags),
   ("qos", Json.str (strBytes f.qos)),
   ("ttl", Json.num f.ttl),
   ("window", windowToJson f.window),
   ("meta", metaToJson f.meta),
   ("payload", payloadToJson f.payload),
   ("sig", optJson (fun s => Json.str (strBytes s)) f.sig),
   ("checksum", optJson (fun s => Json.str (strBytes s)) f.checksum)]

/-- `Frame::compute_checksum`: serialize the frame, remove the top-level
`checksum` and `sig` entries, serialize canonically and hash.  The source
returns `Result` only because serde could fail; serialization of a `Frame`
is total here, so the model returns the string directly. -/
def Frame.compute_checksum (f : Frame) : String :=
  sha256Hex (jsonToBytes (Json.obj
    ((frameFields f).filter (fun kv => kv.1 ≠ "checksum" ∧ kv.1 ≠ "sig"))))

/-- `Frame::with_computed_checksum`. -/
def Frame.with_computed_checksum (f : Frame) : Frame :=
  { f with checksum := some f.compute_checksum }

/-- `Frame::verify_checksum`: recompute and compare exactly; `false` when no
checksum is stored. -/
def Frame.verify_checksum (f : Frame) : Bool :=
  match f.checksum with
  | some existing => existing = f.compute_checksum
  | none => false

/-- `validate_fragment_checksums`. -/
def validate_fragment_checksums (frames : List Frame) : Bool :=
  frames.all (fun f => f.verify_checksum)

/-! ### Fragmentation and reassembly (crates/atp-schema/src/lib.rs) -/

/-- Ceiling chunk count, exactly as written in the source:
`(bytes.len() + max_fragment_bytes - 1) / max_fragment_bytes`. -/
def totalChunks (len maxb : Nat) : Nat := (len + maxb - 1) / maxb

/-- One fragment of the multi-fragment loop body: clone `base`, set
`frag_seq = i as u32`, store the lossily decoded chunk under the `"text"`
key, ensure `MORE` iff not last (an absent `MORE` is pushed at the end of
the existing flags), and attach a fresh checksum. -/
def mkFrag (base : Frame) (total i : Nat) (chunk : List Nat) : Frame :=
  Frame.with_computed_checksum
    { base with
      frag_seq := i % 2 ^ 32,
      payload := { base.payload with
                   content := Json.obj [("text", Json.str (utf8Lossy chunk))] },
      flags := if i < total - 1 then
                 (if base.flags.contains "MORE" then base.flags
                  else base.flags ++ ["MORE"])
               else base.flags.filter (fun fl => fl ≠ "MORE") }

/-- The enumerate-loop of `fragment_text_frame`, with the running index
made explicit. -/
def fragLoop (base : Frame) (total : Nat) : Nat → List (List Nat) → List Frame
  | _, [] => []
  | i, chunk :: rest => mkFrag base total i chunk :: fragLoop base total (i + 1) rest

/-- `fragment_text_frame(base, text, max_fragment_bytes)`.  When the text
fits in one chunk the base frame itself is emitted with `MORE` stripped and
a checksum attached; its payload is left untouched.  Otherwise the UTF-8
bytes are split into chunks and each becomes a fragment. -/
def fragment_text_frame (base : Frame) (text : List Nat) (max_fragment_bytes : Nat) :
    List Frame :=
  if text.length ≤ max_fragment_bytes then
    [Frame.with_computed_checksum
       { base with flags := base.flags.filter (fun fl => fl ≠ "MORE") }]
  else
    fragLoop base (totalChunks text.length max_fragment_bytes) 0
      (chunksOf max_fragment_bytes text)

/-- The per-frame validation loop of `reassemble_text`: at index `i` of `n`
frames, `frag_seq` must equal `i as u32`, a non-final frame must carry
`MORE`, and the final frame must not. -/
def checkFrom (n : Nat) : Nat → List Frame → Bool
  | _, [] => true
  | i, f :: rest =>
    decide (f.frag_seq = i % 2 ^ 32) &&
    (if i < n - 1 then f.flags.contains "MORE" else true) &&
    (if i = n - 1 then !(f.flags.contains "MORE") else true) &&
    checkFrom n (i + 1) rest

/-- The text a frame contributes to the reassembly buffer: the string under
the `"text"` key of an object payload content, else nothing. -/
def frameText (f : Frame) : List Nat :=
  match f.payload.content with
  | Json.obj kvs =>
    match jget kvs "text" with
    | some (Json.str s) => s
    | _ => []
  | _ => []

/-- `reassemble_text(frames)`. -/
def reassemble_text (frames : List Frame) : Option (List Nat) :=
  if frames.isEmpty then none
  else if checkFrom frames.length 0 frames then
    some ((frames.map frameText).flatten)
  else none

/-! ### Window controller (crates/atp-router/src/main.rs)

`WindowState` / `WindowTable`.  The table maps a session key to an entry;
an absent key is distinct from a stored zero entry because `admit` inserts
via `entry().or_default()` while `ack` / `mark_backpressure` use `get_mut`
and do nothing for an absent key.  `Instant` is Nat milliseconds. -/

structure WindowState where
  inflight : Nat
  tokens : Nat
  usd : Nat
  last_backpressure : Option Nat
deriving DecidableEq

def WindowState.zero : WindowState :=
  { inflight := 0, tokens := 0, usd := 0, last_backpressure := none }

def WindowTable := String → Option WindowState

def WindowTable.empty : WindowTable := fun _ => none

def WindowTable.set (t : WindowTable) (k : String) (v : WindowState) : WindowTable :=
  fun k2 => if k2 = k then some v else t k2

/-- The entry `admit` operates on: the stored one, or a fresh default
(`entry(key).or_default()`). -/
def WindowTable.entryOf (t : WindowTable) (k : String) : WindowState :=
  (t k).getD WindowState.zero

/-- `WindowTable::admit` (named `admit` in the source).  The three tests are
performed in order with early `false` returns; the token and usd additions
are u64 additions, which wrap modulo `2^64` in a release build (a debug
build would panic instead); `inflight + 1` is a u32 addition.  Even a failed
call materializes the default entry, because the source looks it up through
`entry().or_default()`. -/
def WindowTable.admitRequest (t : WindowTable) (key : String) (w : Window)
    (est_tokens est_usd : Nat) : Bool × WindowTable :=
  let e := t.entryOf key
  if w.max_parallel ≤ e.inflight then (false, t.set key e)
  else if w.max_tokens < (e.tokens + est_tokens) % 2 ^ 64 then (false, t.set key e)
  else if w.max_usd_micros < (e.usd + est_usd) % 2 ^ 64 then (false, t.set key e)
  else (true, t.set key { e with inflight := (e.inflight + 1) % 2 ^ 32,
                                 tokens := (e.tokens + est_tokens) % 2 ^ 64,
                                 usd := (e.usd + est_usd) % 2 ^ 64 })

/-- `WindowTable::ack`: saturating subtraction throughout (Nat subtraction
is saturating), no-op for an absent key. -/
def WindowTable.ack (t : WindowTable) (key : String) (est_tokens est_usd : Nat) :
    WindowTable :=
  match t key with
  | none => t
  | some e => t.set key { e with inflight := e.inflight - 1,
                                 tokens := e.tokens - est_tokens,
                                 usd := e.usd - est_usd }

/-- `WindowTable::mark_backpressure`: record the current time; no-op for an
absent key (`get_mut`). -/
def WindowTable.mark_backpressure (t : WindowTable) (key : String) (now : Nat) :
    WindowTable :=
  match t key with
  | none => t
  | some e => t.set key { e with last_backpressure := some now }

/-- `WindowTable::under_pressure`: a backpressure timestamp exists and was
recorded less than 2 seconds (2000 ms) ago. -/
def WindowTable.under_pressure (t : WindowTable) (key : String) (now : Nat) : Bool :=
  match t key with
  | none => false
  | some e =>
    match e.last_backpressure with
    | none => false
    | some tm => now - tm < 2000

/-! ### Consensus engine (crates/atp-router/src/consensus.rs)

`normalize` lowercases and replaces every character that is neither
alphanumeric nor a space by a space; the Unicode character classes of Rust
`char::to_lowercase` / `char::is_alphanumeric` are modelled by their ASCII
restrictions (every claim-relevant input is ASCII).  `embed` counts tokens
per hash bucket; the f32 entries are exact counts before L2-normalization,
so they are carried as Nat, and the cosine-threshold comparison of the
normalized vectors is performed in exact integer arithmetic (`simTest`). -/

def asciiLowerChar (c : Char) : Char :=
  if 65 ≤ c.toNat ∧ c.toNat ≤ 90 then Char.ofNat (c.toNat + 32) else c

def isAlnumChar (c : Char) : Bool :=
  (48 ≤ c.toNat ∧ c.toNat ≤ 57) ∨ (65 ≤ c.toNat ∧ c.toNat ≤ 90) ∨
    (97 ≤ c.toNat ∧ c.toNat ≤ 122)

/-- `normalize(s)` (renamed: `normalize` is taken by Mathlib). -/
def normalizeStr (s : String) : String :=
  String.mk (s.data.map (fun c0 =>
    let c := asciiLowerChar c0
    if !(isAlnumChar c) && c ≠ ' ' then ' ' else c))

/-- Whitespace tokenization.  After `normalize` the only whitespace left is
the space character, so `split_whitespace` is splitting on spaces and
dropping empty pieces. -/
def splitTokens : List Char → List Char → List (List Char)
  | [], acc => if acc = [] then [] else [acc.reverse]
  | c :: rest, acc =>
    if c = ' ' then
      (if acc = [] then splitTokens rest [] else acc.reverse :: splitTokens rest [])
    else splitTokens rest (c :: acc)

/-- The UTF-8 bytes of a token (`token.as_bytes()`). -/
def tokenBytes (t : List Char) : List Nat :=
  (t.map (fun c => utf8EncodeChar c.toNat)).flatten

/-- The hash loop of `embed`: starting from the accumulator the source
initializes (the literal `1469598103934665603`), XOR each byte and multiply
by `1099511628211` with u64 wrapping. -/
def fnv1a64 (bs : List Nat) : Nat :=
  bs.foldl (fun x b => ((x ^^^ b) * 1099511628211) % 2 ^ 64) 1469598103934665603

/-- Modelled from the spec: the same hash loop but with the offset basis the
spec prescribes, `0xcbf29ce484222325 = 14695981039346656037`.  The source
literal `1469598103934665603` is this number with its final digit dropped. -/
def fnv1a64Spec (bs : List Nat) : Nat :=
  bs.foldl (fun x b => ((x ^^^ b) * 1099511628211) % 2 ^ 64) 14695981039346656037

/-- Increment position `i` of a count vector (`v[idx] += 1.0` on exact
small-integer f32 values). -/
def bump : List Nat → Nat → List Nat
  | [], _ => []
  | x :: xs, 0 => (x + 1) :: xs
  | x :: xs, i + 1 => x :: bump xs i

/-- `embed(s, dim)` before L2-normalization: the zero-initialized
`dim`-bucket token count vector. -/
def embedCounts (s : String) (dim : Nat) : List Nat :=
  (splitTokens (normalizeStr s).data []).foldl
    (fun v t => bump v (fnv1a64 (tokenBytes t) % dim))
    (List.replicate dim 0)

/-- Dot product of two count vectors. -/
def dotN (a b : List Nat) : Nat := ((a.zip b).map (fun p => p.1 * p.2)).sum

/-- Exact form of `cosine(a, b) >= 0.85` for the L2-normalized images of two
count vectors: the norms of nonzero integer vectors are at least 1, so the
`max(.., 1e-6)` guard never fires for them, and a zero vector normalizes to
the zero vector, giving cosine 0 and a negative answer.  For nonnegative
vectors `dot/(|a||b|) ≥ 0.85  ↔  0 < dot ∧ 289·|a|²·|b|² ≤ 400·dot²`. -/
def simTest (a b : List Nat) : Bool :=
  decide (0 < dotN a b ∧ 289 * dotN a a * dotN b b ≤ 400 * dotN a b * dotN a b)

structure ConsensusResult where
  finals : List String
  representatives : List (Nat × String)
  groups : List (List Nat)
  scores : List ℚ

/-- Append member `i` to group `g` (`groups[gidx].push(i)`). -/
def pushAt : List (List Nat) → Nat → Nat → List (List Nat)
  | [], _, _ => []
  | grp :: rest, 0, i => (grp ++ [i]) :: rest
  | grp :: rest, g + 1, i => grp :: pushAt rest g i

/-- The inner representative scan of the clustering loop: the position of
the first representative similar to `vi`, in `reps` order. -/
def firstMatch (vecs : List (List Nat)) (vi : List Nat) : List Nat → Option Nat
  | [] => none
  | r :: rest =>
    if simTest vi (vecs.getD r []) then some 0
    else (firstMatch vecs vi rest).map (fun g => g + 1)

/-- One iteration of the greedy clustering loop: place index `i` into the
first group whose representative is similar, else open a new group with `i`
as representative. -/
def placeStep (vecs : List (List Nat)) (acc : List (List Nat) × List Nat) (i : Nat) :
    List (List Nat) × List Nat :=
  match firstMatch vecs (vecs.getD i []) acc.2 with
  | some g => (pushAt acc.1 g i, acc.2)
  | none => (acc.1 ++ [[i]], acc.2 ++ [i])

/-- `consensus::compute(finals_json)` with `dim = 128`.  Scores are the exact
rationals `|group| / max(|finals|, 1)`. -/
def consensusCompute (finals_json : List String) : ConsensusResult :=
  let vecs := finals_json.map (fun s => embedCounts s 128)
  let finals := finals_json
  let gr := (List.range vecs.length).foldl (placeStep vecs) ([], [])
  { finals := finals,
    representatives := gr.2.map (fun i => (i, finals.getD i "")),
    groups := gr.1,
    scores := gr.1.map (fun g => (g.length : ℚ) / ((max finals.length 1 : Nat) : ℚ)) }

/-! ### Request processor (crates/atp-router/src/main.rs)

`process_request` is sequential per work item; the phases up to the fan-out
are embedded as a pure function over the window table with the external
inputs abstracted into a context: the policy oracle answer and the summed
adapter cost estimate are parameters, and the current time stands in for
`Instant::now()`.  Metrics calls have no modelled effect. -/

/-- Wrapping u8 subtraction of 1 (`frame.ttl - 1` in a release build; a
debug build would panic on underflow). -/
def wsub8one (a : Nat) : Nat := (a + 255) % 256

/-- `json!({"error":"policy_denied"})`. -/
def policyDeniedMsg : Json := Json.obj [("error", Json.str (strBytes "policy_denied"))]

/-- `json!({"control.status":"BUSY","suggested_wait_ms":200})`. -/
def busyMsg : Json :=
  Json.obj [("control.status", Json.str (strBytes "BUSY")),
            ("suggested_wait_ms", Json.num 200)]

/-- `json!({"control.status":"ECN","action":"drop","reason":"pressure"})`. -/
def ecnDropMsg : Json :=
  Json.obj [("control.status", Json.str (strBytes "ECN")),
            ("action", Json.str (strBytes "drop")),
            ("reason", Json.str (strBytes "pressure"))]

/-- `to_lowercase()` of a QoS string (ASCII model; the comparisons are
against the ASCII literals gold / silver / bronze). -/
def lowerQos (s : String) : String := String.mk (s.data.map asciiLowerChar)

/-- The session key `format!("{}:{}", session_id, stream_id)`. -/
def sessionKey (f : Frame) : String := f.session_id ++ ":" ++ f.stream_id

/-- The ACK frame of phase P5, as the source builds it with `json!`:
identity mirrored, `msg_seq` unchanged, `flags = ["ACK"]`, `ttl`
decremented, payload `agent.result.partial` tagged `router: ack`. -/
def ackFrameJson (f : Frame) : Json :=
  Json.obj [("v", Json.num f.v),
            ("session_id", Json.str (strBytes f.session_id)),
            ("stream_id", Json.str (strBytes f.stream_id)),
            ("msg_seq", Json.num f.msg_seq),
            ("frag_seq", Json.num f.frag_seq),
            ("flags", strListJson ["ACK"]),
            ("qos", Json.str (strBytes f.qos)),
            ("ttl", Json.num (wsub8one f.ttl)),
            ("window", windowToJson f.window),
            ("meta", metaToJson f.meta),
            ("payload", Json.obj
               [("type", Json.str (strBytes "agent.result.partial")),
                ("content", Json.obj [("router", Json.str (strBytes "ack"))])])]

/-- A per-adapter streamed chunk frame of phase P6 (the `json!` under the
adapter stream loop): `msg_seq+1`, `flags=["MORE"]`, decremented `ttl`,
adapter identity attached. -/
def chunkMsgJson (f : Frame) (adapter : String) (ctype : String) (content : Json)
    (confidence : Nat) : Json :=
  Json.obj [("v", Json.num f.v),
            ("session_id", Json.str (strBytes f.session_id)),
            ("stream_id", Json.str (strBytes f.stream_id)),
            ("msg_seq", Json.num ((f.msg_seq + 1) % 2 ^ 64)),
            ("frag_seq", Json.num f.frag_seq),
            ("flags", strListJson ["MORE"]),
            ("qos", Json.str (strBytes f.qos)),
            ("ttl", Json.num (wsub8one f.ttl)),
            ("window", windowToJson f.window),
            ("meta", metaToJson f.meta),
            ("payload", Json.obj
               [("type", Json.str (strBytes ctype)),
                ("content", content),
                ("confidence", Json.fnum confidence)]),
            ("adapter", Json.str (strBytes adapter))]

/-- The provisional consensus frame of phase P8: `msg_seq+1`,
`flags=["MORE"]`, decremented `ttl`, `expiry_ms = 1500`. -/
def provisionalMsgJson (f : Frame) (body : Json) : Json :=
  Json.obj [("v", Json.num f.v),
            ("session_id", Json.str (strBytes f.session_id)),
            ("stream_id", Json.str (strBytes f.stream_id)),
            ("msg_seq", Json.num ((f.msg_seq + 1) % 2 ^ 64)),
            ("frag_seq", Json.num f.frag_seq),
            ("flags", strListJson ["MORE"]),
            ("qos", Json.str (strBytes f.qos)),
            ("ttl", Json.num (wsub8one f.ttl)),
            ("window", windowToJson f.window),
            ("meta", metaToJson f.meta),
            ("payload", Json.obj
               [("type", Json.str (strBytes "agent.result.provisional")),
                ("content", body),
                ("expiry_ms", Json.num 1500)])]

/-- The terminal consensus frame of phase P9: `msg_seq+2`, `flags=["FIN"]`,
decremented `ttl`. -/
def finalMsgJson (f : Frame) (body : Json) : Json :=
  Json.obj [("v", Json.num f.v),
            ("session_id", Json.str (strBytes f.session_id)),
            ("stream_id", Json.str (strBytes f.stream_id)),
            ("msg_seq", Json.num ((f.msg_seq + 2) % 2 ^ 64)),
            ("frag_seq", Json.num f.frag_seq),
            ("flags", strListJson ["FIN"]),
            ("qos", Json.str (strBytes f.qos)),
            ("ttl", Json.num (wsub8one f.ttl)),
            ("window", windowToJson f.window),
            ("meta", metaToJson f.meta),
            ("payload", Json.obj
               [("type", Json.str (strBytes "agent.result.final")),
                ("content", body)])]

/-- The `"ttl"` entry of an emitted frame object. -/
def ttlOf (j : Json) : Option Json :=
  match j with
  | Json.obj kvs => jget kvs "ttl"
  | _ => none

/-- How the prelude of `process_request` ended. -/
inductive PreOutcome where
  | denied
  | busy
  | shed
  | proceed
deriving DecidableEq

/-- Phases P1 and P3-P5 of `process_request`, up to the point where the
fan-out begins: the policy gate, the admission attempt (on rejection: BUSY
reply, then `mark_backpressure`), the bronze pressure shed (ECN reply, then
release via `ack`), and otherwise the ACK frame.  Returns the replies sent,
the window table afterwards and how the prelude ended; a `proceed` outcome
continues into the fan-out / aggregation phases. -/
def processPrelude (policyAllow : Bool) (t : WindowTable) (f : Frame)
    (needTokens needUsd : Nat) (now : Nat) : List Json × WindowTable × PreOutcome :=
  if !policyAllow then ([policyDeniedMsg], t, PreOutcome.denied)
  else
    let key := sessionKey f
    let r := t.admitRequest key f.window needTokens needUsd
    if !r.1 then
      ([busyMsg], r.2.mark_backpressure key now, PreOutcome.busy)
    else if r.2.under_pressure key now && (lowerQos f.qos = "bronze" : Bool) then
      ([ecnDropMsg], r.2.ack key needTokens needUsd, PreOutcome.shed)
    else
      ([ackFrameJson f], r.2, PreOutcome.proceed)

/-! ### Ingress gate (handle_socket, crates/atp-router/src/main.rs)

A parsed text frame is enqueued as a work item only after the TTL gate:
`if frame.ttl == 0 { reply ttl_expired; continue }`. -/

/-- The TTL gate: a work item is handed to `process_request` only when this
holds. -/
def ingressTtlGate (f : Frame) : Bool := !(f.ttl = 0 : Bool)

/-! ### The reassembly discipline as the spec words it (for claim C6) -/

/-- The condition of claim C6, read off the spec: the sequence is strictly
ordered (`frag_seq` equals its index), every non-final frame carries `MORE`,
and the final frame does not. -/
def reassembleCond (frames : List Frame) : Prop :=
  ∀ j, (hj : j < frames.length) →
    (frames.get ⟨j, hj⟩).frag_seq = j ∧
    (j < frames.length - 1 → (frames.get ⟨j, hj⟩).flags.contains "MORE" = true) ∧
    (j = frames.length - 1 → (frames.get ⟨j, hj⟩).flags.contains "MORE" = false)

instance (frames : List Frame) : Decidable (reassembleCond frames) := by
  unfold reassembleCond; infer_instance

/-! ### Concrete sample data for witnesses and counterexamples -/

/-- A well-formed base frame (the shape of `sample_frame()` in the source
tests): `frag_seq = 0`, payload text `"hello"`. -/
def base0 : Frame :=
  { v := 1, session_id := "sess1", stream_id := "streamA", msg_seq := 42, frag_seq := 0,
    flags := ["MORE"], qos := "gold", ttl := 5,
    window := { max_parallel := 4, max_tokens := 10000, max_usd_micros := 2000000 },
    meta := { task_type := some "ask", languages := none, risk := none, data_scope := none,
              trace := none, tool_permissions := none, environment_id := none,
              security_groups := none },
    payload := { type := "text", content := Json.obj [("text", Json.str (strBytes "hello"))],
                 confidence := none, cost_est := none, checksum := none, expiry_ms := none },
    sig := none, checksum := none }

/-- A bronze-QoS frame keyed `s:t` with a generous window. -/
def fBronze : Frame :=
  { base0 with session_id := "s", stream_id := "t", qos := "bronze",
               window := { max_parallel := 4, max_tokens := 100, max_usd_micros := 100 } }

/-- A table whose `s:t` entry carries a backpressure mark at time 0. -/
def tPressed : WindowTable :=
  WindowTable.empty.set "s:t"
    { inflight := 0, tokens := 0, usd := 0, last_backpressure := some 0 }

/-- A reachable entry whose token counter sits at `u64::MAX`
(e.g. admitted with `need_tokens = u64::MAX` against a maximal window). -/
def tBig : WindowTable :=
  WindowTable.empty.set "k"
    { inflight := 0, tokens := 2 ^ 64 - 1, usd := 0, last_backpressure := none }

/-- A window with `max_tokens = 0` and room for one parallel request. -/
def wTight : Window := { max_parallel := 1, max_tokens := 0, max_usd_micros := 0 }

/-- A window with `max_tokens = 0` and room for two parallel requests. -/
def wTwo : Window := { max_parallel := 2, max_tokens := 0, max_usd_micros := 0 }

/-- A single complete unfragmented frame (final, no `MORE`), text `"hi"`. -/
def gFrame : Frame :=
  { base0 with flags := [],
               payload := { base0.payload with
                            content := Json.obj [("text", Json.str (strBytes "hi"))] } }

/-! ## Lemmas and claim theorems -/

/-- The checksum domain ignores the stored `checksum` field: it is removed
from the serialized object before hashing. -/
theorem compute_checksum_set_checksum (f : Frame) (c : Option String) :
    Frame.compute_checksum { f with checksum := c } = f.compute_checksum := rfl

/-- Any frame returned by `with_computed_checksum` verifies. -/
theorem verify_with_computed (f : Frame) :
    (f.with_computed_checksum).verify_checksum = true := by
  simp [Frame.verify_checksum, Frame.with_computed_checksum, compute_checksum_set_checksum]

/-- Claim C5: for every frame `F`, `verify_checksum(with_computed_checksum(F))`
holds; `with_computed_checksum` stores exactly `compute_checksum(F)` (the
lowercase hex SHA-256 of the canonical serialization with the `checksum` and
`sig` fields removed), and recomputing on the populated frame reproduces the
stored value. -/
theorem C5_checksum_roundtrip (F : Frame) :
    (F.with_computed_checksum).checksum = some F.compute_checksum ∧
    (F.with_computed_checksum).verify_checksum = true :=
  ⟨rfl, verify_with_computed F⟩

/-- Claim C10: when the text fits in one chunk, `fragment_text_frame` emits
exactly the base frame with `MORE` removed from its flags and a checksum
attached; `frag_seq` and the payload (in particular `payload.content`) are
left exactly as in `base`, and the `text` argument is not written anywhere. -/
theorem C10_single_fragment (base : Frame) (text : List Nat) (maxb : Nat)
    (h : text.length ≤ maxb) :
    fragment_text_frame base text maxb =
      [Frame.with_computed_checksum
         { base with flags := base.flags.filter (fun fl => fl ≠ "MORE") }] ∧
    (Frame.with_computed_checksum
       { base with flags := base.flags.filter (fun fl => fl ≠ "MORE") }).frag_seq
        = base.frag_seq ∧
    (Frame.with_computed_checksum
       { base with flags := base.flags.filter (fun fl => fl ≠ "MORE") }).payload
        = base.payload := by
  refine ⟨?_, rfl, rfl⟩
  unfold fragment_text_frame
  simp [h]

/-- Claim C10, witness at a concrete input. -/
theorem C10_witness :
    fragment_text_frame base0 (strBytes "yo") 8 =
      [Frame.with_computed_checksum
         { base0 with flags := base0.flags.filter (fun fl => fl ≠ "MORE") }] ∧
    (Frame.with_computed_checksum
       { base0 with flags := base0.flags.filter (fun fl => fl ≠ "MORE") }).frag_seq
        = base0.frag_seq ∧
    (Frame.with_computed_checksum
       { base0 with flags := base0.flags.filter (fun fl => fl ≠ "MORE") }).payload
        = base0.payload :=
  C10_single_fragment base0 (strBytes "yo") 8 (by decide)

/-- Claim C1, counterexample: with a base frame whose payload text is
`"hello"`, fragmenting the two-byte text `"yz"` (which fits in one chunk of
8 bytes, with `max_bytes = 8 ≥ 1`) produces a fragment list that reassembles
to `"hello"`, not to `"yz"`: the single-fragment path of
`fragment_text_frame` never writes its `text` argument into the payload. -/
theorem C1_counterexample :
    reassemble_text (fragment_text_frame base0 (strBytes "yz") 8) ≠
      some (strBytes "yz") := by decide


/-- Chunks concatenate back to the original bytes. -/
theorem chunksOf_flatten (k : Nat) (hk : k ≠ 0) (l : List Nat) :
    (chunksOf k l).flatten = l := by
  rw [chunksOf]
  by_cases h : l = []
  · simp [h]
  · rw [if_neg h, if_neg hk]
    have ih := chunksOf_flatten k hk (l.drop k)
    simp [ih]
termination_by l.length
decreasing_by
  simp only [List.length_drop]
  have := List.length_pos.mpr h
  omega

/-- The chunk count is the ceiling formula of the source. -/
theorem chunksOf_length (k : Nat) (hk : k ≠ 0) (l : List Nat) :
    (chunksOf k l).length = (l.length + k - 1) / k := by
  rw [chunksOf]
  by_cases h : l = []
  · rw [if_pos h]
    subst h
    simp only [List.length_nil, List.length, Nat.zero_add]
    rw [Nat.div_eq_of_lt (by omega)]
  · rw [if_neg h, if_neg hk]
    have ih := chunksOf_length k hk (l.drop k)
    have h1 : l.length ≠ 0 := fun hh => h (List.eq_nil_of_length_eq_zero hh)
    simp only [List.length_cons, ih, List.length_drop]
    have e2 : l.length + k - 1 = (l.length - 1) + k := by omega
    rw [e2, Nat.add_div_right _ (by omega)]
    by_cases hlk : l.length ≤ k
    · rw [Nat.div_eq_of_lt (by omega), Nat.div_eq_of_lt (by omega)]
    · have e1 : l.length - k + k - 1 = l.length - 1 := by omega
      rw [e1]
termination_by l.length
decreasing_by
  simp only [List.length_drop]
  have := List.length_pos.mpr h
  omega

/-- Every byte of a chunk is a byte of the original list. -/
theorem chunksOf_mem (k : Nat) (l : List Nat) :
    ∀ c ∈ chunksOf k l, ∀ b ∈ c, b ∈ l := by
  intro c hc b hb
  rw [chunksOf] at hc
  by_cases h : l = []
  · simp [h] at hc
  · by_cases hk : k = 0
    · rw [if_neg h, if_pos hk] at hc
      simp at hc
      subst hc; exact hb
    · rw [if_neg h, if_neg hk] at hc
      rcases List.mem_cons.mp hc with hc1 | hc2
      · subst hc1; exact List.take_subset k l hb
      · exact List.drop_subset k l (chunksOf_mem k (l.drop k) c hc2 b hb)
termination_by l.length
decreasing_by
  simp only [List.length_drop]
  have := List.length_pos.mpr h
  omega

/-- Lossy decoding is the identity on ASCII bytes. -/
theorem utf8Lossy_ascii (l : List Nat) (h : ∀ b ∈ l, b < 128) : utf8Lossy l = l := by
  induction l with
  | nil => rw [utf8Lossy]
  | cons b rest ih =>
    have hb : b < 128 := h b (List.mem_cons_self b rest)
    rw [utf8Lossy, if_pos hb, ih (fun x hx => h x (List.mem_cons_of_mem b hx))]

theorem fragLoop_length (base : Frame) (total : Nat) :
    ∀ (chunks : List (List Nat)) (i : Nat),
      (fragLoop base total i chunks).length = chunks.length := by
  intro chunks
  induction chunks with
  | nil => intro i; rfl
  | cons c rest ih => intro i; simp [fragLoop, ih]

theorem fragLoop_texts (base : Frame) (total : Nat) :
    ∀ (chunks : List (List Nat)) (i : Nat),
      (fragLoop base total i chunks).map frameText = chunks.map utf8Lossy := by
  intro chunks
  induction chunks with
  | nil => intro i; rfl
  | cons c rest ih =>
    intro i
    simp only [fragLoop, List.map_cons, ih]
    rfl

/-- Every frame the fragment loop emits verifies its checksum. -/
theorem fragLoop_verify (base : Frame) (total : Nat) :
    ∀ (chunks : List (List Nat)) (i : Nat),
      ∀ f ∈ fragLoop base total i chunks, f.verify_checksum = true := by
  intro chunks
  induction chunks with
  | nil => intro i f hf; simp [fragLoop] at hf
  | cons c rest ih =>
    intro i f hf
    rcases List.mem_cons.mp hf with h1 | h2
    · subst h1; exact verify_with_computed _
    · exact ih (i + 1) f h2

/-- The flags of a loop fragment. -/
theorem mkFrag_flags (base : Frame) (total i : Nat) (c : List Nat) :
    (mkFrag base total i c).flags =
      if i < total - 1 then
        (if base.flags.contains "MORE" then base.flags else base.flags ++ ["MORE"])
      else base.flags.filter (fun fl => fl ≠ "MORE") := rfl

/-- The fragment loop output passes the reassembly validation loop. -/
theorem fragLoop_check (base : Frame) :
    ∀ (chunks : List (List Nat)) (i n : Nat), i + chunks.length = n →
      checkFrom n i (fragLoop base n i chunks) = true := by
  intro chunks
  induction chunks with
  | nil => intro i n _; rfl
  | cons c rest ih =>
    intro i n h
    simp only [fragLoop, checkFrom, Bool.and_eq_true, decide_eq_true_eq]
    by_cases hrest : rest = []
    · subst hrest
      have hin : i = n - 1 := by simp at h; omega
      have hnotlt : ¬ i < n - 1 := by omega
      refine ⟨⟨⟨rfl, ?_⟩, ?_⟩, ?_⟩
      · rw [if_neg hnotlt]
      · rw [if_pos hin, mkFrag_flags, if_neg hnotlt]
        simp
      · rfl
    · have hlt : i < n - 1 := by
        have : rest.length ≠ 0 := fun hh => hrest (List.eq_nil_of_length_eq_zero hh)
        simp at h; omega
      have hne : i ≠ n - 1 := by omega
      refine ⟨⟨⟨rfl, ?_⟩, ?_⟩, ?_⟩
      · rw [if_pos hlt, mkFrag_flags, if_pos hlt]
        by_cases hcont : base.flags.contains "MORE" = true
        · rw [if_pos hcont]; exact hcont
        · rw [if_neg hcont]; simp
      · rw [if_neg hne]
      · refine ih (i + 1) n ?_
        simp at h ⊢
        omega

/-- Claim C1 (amended): whenever the text needs more than one fragment
(`max_bytes ≥ 1` and `max_bytes < |T|`) and is ASCII — so that the byte
chunking cannot split a multi-byte UTF-8 character and
`String::from_utf8_lossy` is lossless — fragmenting and reassembling gives
back exactly `T`, and every produced fragment verifies its checksum.
The unamended claim fails on the single-fragment path (see the
counterexample), which reuses the base frame payload untouched. -/
theorem C1_roundtrip (base : Frame) (T : List Nat) (M : Nat)
    (hM : 1 ≤ M) (hlen : M < T.length) (hascii : ∀ b ∈ T, b < 128) :
    reassemble_text (fragment_text_frame base T M) = some T ∧
    validate_fragment_checksums (fragment_text_frame base T M) = true := by
  have hk : M ≠ 0 := by omega
  have hnot : ¬ (T.length ≤ M) := by omega
  have hchne : chunksOf M T ≠ [] := by
    have hTne : T ≠ [] := by
      intro hh
      rw [hh] at hlen
      simp at hlen
    rw [chunksOf, if_neg hTne, if_neg hk]
    simp
  have hlenchunks : (chunksOf M T).length = totalChunks T.length M :=
    chunksOf_length M hk T
  unfold fragment_text_frame
  rw [if_neg hnot]
  constructor
  · unfold reassemble_text
    have hfl : (fragLoop base (totalChunks T.length M) 0 (chunksOf M T)).length =
        (chunksOf M T).length :=
      fragLoop_length base (totalChunks T.length M) (chunksOf M T) 0
    have hne : (fragLoop base (totalChunks T.length M) 0 (chunksOf M T)) ≠ [] := by
      intro hh
      have h2 := congrArg List.length hh
      rw [hfl] at h2
      exact hchne (List.eq_nil_of_length_eq_zero (by simpa using h2))
    rw [if_neg (by simpa [List.isEmpty_iff] using hne)]
    have hcheck : checkFrom
        (fragLoop base (totalChunks T.length M) 0 (chunksOf M T)).length 0
        (fragLoop base (totalChunks T.length M) 0 (chunksOf M T)) = true := by
      rw [hfl, hlenchunks]
      exact fragLoop_check base (chunksOf M T) 0 (totalChunks T.length M)
        (by simpa using hlenchunks)
    rw [if_pos hcheck]
    congr 1
    rw [fragLoop_texts]
    have hmapid : (chunksOf M T).map utf8Lossy = (chunksOf M T).map id :=
      List.map_congr_left (fun c hc =>
        utf8Lossy_ascii c (fun b hb => hascii b (chunksOf_mem M T c hc b hb)))
    rw [hmapid, List.map_id, chunksOf_flatten M hk]
  · unfold validate_fragment_checksums
    rw [List.all_eq_true]
    intro f hf
    exact fragLoop_verify base (totalChunks T.length M) (chunksOf M T) 0 f hf

/-- Claim C1, witness: a 5-byte ASCII text with 2-byte fragments round-trips
and all fragments verify. -/
theorem C1_witness :
    reassemble_text (fragment_text_frame base0 (strBytes "hello") 2) =
      some (strBytes "hello") ∧
    validate_fragment_checksums (fragment_text_frame base0 (strBytes "hello") 2) = true :=
  C1_roundtrip base0 (strBytes "hello") 2 (by decide) (by decide) (by decide)

/-- What the validation loop of `reassemble_text` checks, indexwise, with
the running index made explicit. -/
theorem checkFrom_iff (fs : List Frame) : ∀ i n : Nat,
    checkFrom n i fs = true ↔
      ∀ j, (hj : j < fs.length) →
        (fs.get ⟨j, hj⟩).frag_seq = (i + j) % 2 ^ 32 ∧
        (i + j < n - 1 → (fs.get ⟨j, hj⟩).flags.contains "MORE" = true) ∧
        (i + j = n - 1 → (fs.get ⟨j, hj⟩).flags.contains "MORE" = false) := by
  induction fs with
  | nil =>
    intro i n
    constructor
    · intro _ j hj
      exact absurd hj (by simp)
    · intro _
      rfl
  | cons f rest ih =>
    intro i n
    simp only [checkFrom, Bool.and_eq_true, decide_eq_true_eq]
    constructor
    · rintro ⟨⟨⟨h1, h2⟩, h3⟩, h4⟩ j hj
      cases j with
      | zero =>
        refine ⟨by simpa using h1, ?_, ?_⟩
        · intro hlt
          rw [if_pos (by simpa using hlt)] at h2
          simpa using h2
        · intro heq
          rw [if_pos (by simpa using heq)] at h3
          simpa using h3
      | succ j0 =>
        have hj0 : j0 < rest.length := by simpa using Nat.lt_of_succ_lt_succ hj
        have hrec := (ih (i + 1) n).mp h4 j0 hj0
        have harith : i + 1 + j0 = i + (j0 + 1) := by omega
        rw [harith] at hrec
        exact hrec
    · intro hall
      have h0 := hall 0 (by simp)
      simp only [Nat.add_zero] at h0
      refine ⟨⟨⟨h0.1, ?_⟩, ?_⟩, ?_⟩
      · by_cases hlt : i < n - 1
        · rw [if_pos hlt]
          exact h0.2.1 hlt
        · rw [if_neg hlt]
      · by_cases heq : i = n - 1
        · rw [if_pos heq, Bool.not_eq_true']
          exact h0.2.2 heq
        · rw [if_neg heq]
      · refine (ih (i + 1) n).mpr ?_
        intro j0 hj0
        have hrec := hall (j0 + 1) (by simpa using Nat.succ_lt_succ hj0)
        have harith : i + (j0 + 1) = i + 1 + j0 := by omega
        rw [harith] at hrec
        exact hrec

/-- Over lists of physically realizable length the loop condition coincides
with the spec condition (the `as u32` casts become invisible). -/
theorem checkFrom_iff_cond (frames : List Frame) (hlen : frames.length ≤ 2 ^ 32) :
    (checkFrom frames.length 0 frames = true) ↔ reassembleCond frames := by
  rw [checkFrom_iff]
  unfold reassembleCond
  constructor
  · intro h j hj
    obtain ⟨h1, h2, h3⟩ := h j hj
    have hjm : j % 2 ^ 32 = j := Nat.mod_eq_of_lt (by omega)
    refine ⟨?_, fun hl => h2 (by simpa using hl), fun he => h3 (by simpa using he)⟩
    rw [h1]
    simpa using hjm
  · intro h j hj
    obtain ⟨h1, h2, h3⟩ := h j hj
    have hjm : j % 2 ^ 32 = j := Nat.mod_eq_of_lt (by omega)
    refine ⟨?_, fun hl => h2 (by simpa using hl), fun he => h3 (by simpa using he)⟩
    rw [h1]
    omega

/-- Claim C6, counterexample: on the empty list the spec condition holds
vacuously — so the claim requires the empty concatenation to be returned —
but `reassemble_text` returns nothing (its first line rejects the empty
list). -/
theorem C6_counterexample :
    reassemble_text ([] : List Frame) = none ∧ reassembleCond [] := by
  constructor
  · rfl
  · intro j hj
    exact absurd hj (by simp)

/-- Claim C6 (amended): for every nonempty frame list (of physically
realizable length, at most `2^32`), `reassemble_text` returns the
concatenation of the frames' `payload.content.text` values iff the sequence
is strictly ordered with the `MORE` discipline; otherwise it returns
nothing.  The unamended claim fails only on the empty list (see the
counterexample). -/
theorem C6_reassemble_iff (frames : List Frame) (hne : frames ≠ [])
    (hlen : frames.length ≤ 2 ^ 32) :
    (reassemble_text frames = some ((frames.map frameText).flatten) ↔
      reassembleCond frames) ∧
    (¬ reassembleCond frames → reassemble_text frames = none) := by
  have hE : frames.isEmpty = false := by simpa [List.isEmpty_iff] using hne
  unfold reassemble_text
  by_cases hc : checkFrom frames.length 0 frames = true
  · rw [if_neg (by simp [hE]), if_pos hc]
    refine ⟨⟨fun _ => (checkFrom_iff_cond frames hlen).mp hc, fun _ => rfl⟩, ?_⟩
    intro hnc
    exact absurd ((checkFrom_iff_cond frames hlen).mp hc) hnc
  · rw [if_neg (by simp [hE]), if_neg hc]
    refine ⟨⟨fun h => by simp at h,
             fun hcond => absurd ((checkFrom_iff_cond frames hlen).mpr hcond) hc⟩,
            fun _ => rfl⟩

/-- Claim C6, witness: a single final frame carrying text and no `MORE`
satisfies the condition and reassembles. -/
theorem C6_witness :
    (reassemble_text [gFrame] = some (([gFrame].map frameText).flatten) ↔
      reassembleCond [gFrame]) ∧
    (¬ reassembleCond [gFrame] → reassemble_text [gFrame] = none) :=
  C6_reassemble_iff [gFrame] (by simp) (by decide)

/-- Updating a table makes the key hold exactly the stored entry. -/
theorem WindowTable.set_get_same (t : WindowTable) (k : String) (v : WindowState) :
    (t.set k v) k = some v := by
  simp [WindowTable.set]

/-- Claim C3, counterexample: with a reachable entry whose token counter is
`u64::MAX`, a request for one more token against `max_tokens = 0` is
admitted — the u64 addition wraps to zero — although the claimed condition
`tokens + need_tokens ≤ max_tokens` is false. -/
theorem C3_counterexample :
    (tBig.admitRequest "k" wTight 1 0).1 = true ∧
    ¬ ((tBig.entryOf "k").tokens + 1 ≤ wTight.max_tokens) := by decide

/-- Claim C3 (amended): `admit` returns true iff `inflight < max_parallel`
and the *wrapped* sums `(tokens + need) mod 2^64` and `(usd + need) mod 2^64`
stay within the window — which coincides with the claimed inequalities
whenever the u64 additions do not overflow.  On success the entry stores the
wrapped sums and the incremented inflight count; on failure the counters are
unchanged (a zero entry is materialized for an absent key either way). -/
theorem C3_admit (t : WindowTable) (key : String) (w : Window) (nT nU : Nat) :
    ((t.admitRequest key w nT nU).1 = true ↔
      ((t.entryOf key).inflight < w.max_parallel ∧
       ((t.entryOf key).tokens + nT) % 2 ^ 64 ≤ w.max_tokens ∧
       ((t.entryOf key).usd + nU) % 2 ^ 64 ≤ w.max_usd_micros)) ∧
    ((t.admitRequest key w nT nU).1 = true →
      (t.admitRequest key w nT nU).2 key =
        some { inflight := ((t.entryOf key).inflight + 1) % 2 ^ 32,
               tokens := ((t.entryOf key).tokens + nT) % 2 ^ 64,
               usd := ((t.entryOf key).usd + nU) % 2 ^ 64,
               last_backpressure := (t.entryOf key).last_backpressure }) ∧
    ((t.admitRequest key w nT nU).1 = false →
      (t.admitRequest key w nT nU).2 key = some (t.entryOf key)) := by
  unfold WindowTable.admitRequest
  dsimp only
  split_ifs with h1 h2 h3
  · refine ⟨by simp; omega, by simp, fun _ => WindowTable.set_get_same t key _⟩
  · refine ⟨by simp; omega, by simp, fun _ => WindowTable.set_get_same t key _⟩
  · refine ⟨by simp; omega, by simp, fun _ => WindowTable.set_get_same t key _⟩
  · refine ⟨by simp; omega, fun _ => WindowTable.set_get_same t key _, by simp⟩

/-- Claim C4, counterexample: with the token counter at `u64::MAX`, an
`admit` that wraps to zero succeeds, and the following `ack` saturates at
zero instead of restoring `u64::MAX`. -/
theorem C4_counterexample :
    (tBig.admitRequest "k" wTwo 1 0).1 = true ∧
    (((tBig.admitRequest "k" wTwo 1 0).2.ack "k" 1 0).entryOf "k").tokens ≠
      (tBig.entryOf "k").tokens := by decide

/-- Claim C4 (amended): provided the u64 token and usd additions do not
overflow (and `max_parallel` is a u32 value), a successful
`admit(key, w, n, u)` followed by `ack(key, n, u)` restores the key's
`inflight`, `tokens` and `usd` counters to their pre-admit values. -/
theorem C4_restore (t : WindowTable) (key : String) (w : Window) (nT nU : Nat)
    (hP : w.max_parallel < 2 ^ 32)
    (hT : (t.entryOf key).tokens + nT < 2 ^ 64)
    (hU : (t.entryOf key).usd + nU < 2 ^ 64)
    (hadm : (t.admitRequest key w nT nU).1 = true) :
    (((t.admitRequest key w nT nU).2.ack key nT nU).entryOf key).inflight =
      (t.entryOf key).inflight ∧
    (((t.admitRequest key w nT nU).2.ack key nT nU).entryOf key).tokens =
      (t.entryOf key).tokens ∧
    (((t.admitRequest key w nT nU).2.ack key nT nU).entryOf key).usd =
      (t.entryOf key).usd := by
  unfold WindowTable.admitRequest at hadm ⊢
  dsimp only at hadm ⊢
  split_ifs at hadm with h1 h2 h3
  rw [if_neg h1, if_neg h2, if_neg h3]
  unfold WindowTable.ack WindowTable.entryOf
  unfold WindowTable.entryOf at hT hU h1
  simp only [WindowTable.set_get_same, Option.getD_some]
  refine ⟨?_, ?_, ?_⟩ <;> omega

/-- Claim C4, witness: a concrete admit/ack pair on a fresh key. -/
theorem C4_witness :
    (((WindowTable.empty.admitRequest "k" fBronze.window 3 2).2.ack "k" 3 2).entryOf
        "k").inflight = (WindowTable.empty.entryOf "k").inflight ∧
    (((WindowTable.empty.admitRequest "k" fBronze.window 3 2).2.ack "k" 3 2).entryOf
        "k").tokens = (WindowTable.empty.entryOf "k").tokens ∧
    (((WindowTable.empty.admitRequest "k" fBronze.window 3 2).2.ack "k" 3 2).entryOf
        "k").usd = (WindowTable.empty.entryOf "k").usd :=
  C4_restore WindowTable.empty "k" fBronze.window 3 2 (by decide) (by decide)
    (by decide) (by decide)

/-- Claim C8: after a successful admission, if the key is under pressure
(backpressure mark less than 2 s old) and the lowercased QoS is bronze, the
processor replies with the ECN drop control message, releases the
reservation via `ack(key, need_tokens, need_usd)`, and stops (`shed`); a
non-bronze request under the same pressure instead proceeds with the ACK
frame into the fan-out phase. -/
theorem C8_pressure_shed (t : WindowTable) (f : Frame) (nT nU now : Nat)
    (hadm : (t.admitRequest (sessionKey f) f.window nT nU).1 = true)
    (hpress : (t.admitRequest (sessionKey f) f.window nT nU).2.under_pressure
        (sessionKey f) now = true) :
    (lowerQos f.qos = "bronze" →
      processPrelude true t f nT nU now =
        ([ecnDropMsg],
         (t.admitRequest (sessionKey f) f.window nT nU).2.ack (sessionKey f) nT nU,
         PreOutcome.shed)) ∧
    (lowerQos f.qos ≠ "bronze" →
      processPrelude true t f nT nU now =
        ([ackFrameJson f],
         (t.admitRequest (sessionKey f) f.window nT nU).2,
         PreOutcome.proceed)) := by
  constructor <;> intro hq <;>
    simp [processPrelude, hadm, hpress, hq]

/-- Claim C8, witness: a bronze frame on a freshly marked key is shed. -/
theorem C8_witness :
    processPrelude true tPressed fBronze 1 1 100 =
      ([ecnDropMsg],
       (tPressed.admitRequest (sessionKey fBronze) fBronze.window 1 1).2.ack
         (sessionKey fBronze) 1 1,
       PreOutcome.shed) :=
  (C8_pressure_shed tPressed fBronze 1 1 100 (by decide) (by decide)).1 (by decide)

/-- Claim C9: a frame that passed the ingress TTL gate has `ttl ≥ 1`, so the
wrapping u8 decrement coincides with the exact decrement, and each emitted
frame of the processor — the ACK, the per-adapter partials, the provisional
and the final — carries `ttl - 1` with no u8 underflow. -/
theorem C9_ttl_no_underflow (f : Frame) (adapter ctype : String)
    (content body1 body2 : Json) (conf : Nat)
    (hgate : ingressTtlGate f = true) (hu8 : f.ttl < 256) :
    1 ≤ f.ttl ∧
    wsub8one f.ttl = f.ttl - 1 ∧
    ttlOf (ackFrameJson f) = some (Json.num (f.ttl - 1)) ∧
    ttlOf (chunkMsgJson f adapter ctype content conf) = some (Json.num (f.ttl - 1)) ∧
    ttlOf (provisionalMsgJson f body1) = some (Json.num (f.ttl - 1)) ∧
    ttlOf (finalMsgJson f body2) = some (Json.num (f.ttl - 1)) := by
  have h0 : f.ttl ≠ 0 := by
    intro hh
    simp [ingressTtlGate, hh] at hgate
  have h1 : 1 ≤ f.ttl := by omega
  have h2 : wsub8one f.ttl = f.ttl - 1 := by
    unfold wsub8one
    omega
  refine ⟨h1, h2, ?_, ?_, ?_, ?_⟩ <;> rw [← h2] <;> rfl

/-- Claim C9, witness at a concrete frame with `ttl = 5`. -/
theorem C9_witness :
    1 ≤ base0.ttl ∧
    wsub8one base0.ttl = base0.ttl - 1 ∧
    ttlOf (ackFrameJson base0) = some (Json.num (base0.ttl - 1)) ∧
    ttlOf (chunkMsgJson base0 "a" "t" Json.null 0) = some (Json.num (base0.ttl - 1)) ∧
    ttlOf (provisionalMsgJson base0 Json.null) = some (Json.num (base0.ttl - 1)) ∧
    ttlOf (finalMsgJson base0 Json.null) = some (Json.num (base0.ttl - 1)) :=
  C9_ttl_no_underflow base0 "a" "t" Json.null Json.null Json.null 0
    (by decide) (by decide)

/-- Claim C2: the embed hash of the source is FNV-1a-shaped (XOR each byte,
then wrapping multiply by `0x100000001b3`), but its offset basis literal is
`1469598103934665603` — the spec's `0xcbf29ce484222325 = 14695981039346656037`
with the final digit dropped.  For the one-token string `"a"` the code
increments bucket 6 of the 128-bucket vector, while the spec basis selects
bucket 12. -/
theorem C2_fnv_basis_bug :
    fnv1a64 (strBytes "a") % 128 = 6 ∧
    fnv1a64Spec (strBytes "a") % 128 = 12 ∧
    (embedCounts "a" 128).getD 6 0 = 1 ∧
    (embedCounts "a" 128).getD 12 0 = 0 := by decide

theorem pushAt_length (i : Nat) :
    ∀ (gs : List (List Nat)) (g : Nat), (pushAt gs g i).length = gs.length := by
  intro gs
  induction gs with
  | nil => intro g; rfl
  | cons grp rest ih =>
    intro g
    cases g with
    | zero => rfl
    | succ g0 => simp [pushAt, ih g0]

theorem pushAt_flatten_perm (i : Nat) :
    ∀ (gs : List (List Nat)) (g : Nat), g < gs.length →
      (pushAt gs g i).flatten.Perm (gs.flatten ++ [i]) := by
  intro gs
  induction gs with
  | nil => intro g hg; exact absurd hg (by simp)
  | cons grp rest ih =>
    intro g hg
    cases g with
    | zero =>
      simp only [pushAt, List.flatten_cons, List.append_assoc]
      exact List.Perm.append_left grp List.perm_append_comm
    | succ g0 =>
      have hg0 : g0 < rest.length := by simpa using Nat.lt_of_succ_lt_succ hg
      simp only [pushAt, List.flatten_cons]
      have h1 := List.Perm.append_left grp (ih g0 hg0)
      rw [← List.append_assoc] at h1
      exact h1

theorem firstMatch_lt (vecs : List (List Nat)) (vi : List Nat) :
    ∀ (reps : List Nat) (g : Nat), firstMatch vecs vi reps = some g → g < reps.length := by
  intro reps
  induction reps with
  | nil => intro g hg; simp [firstMatch] at hg
  | cons r rest ih =>
    intro g hg
    rw [firstMatch] at hg
    by_cases hs : simTest vi (vecs.getD r []) = true
    · rw [if_pos hs] at hg
      simp at hg
      simp only [List.length_cons]
      omega
    · rw [if_neg hs] at hg
      cases hfm : firstMatch vecs vi rest with
      | none => rw [hfm] at hg; simp at hg
      | some g0 =>
        rw [hfm] at hg
        simp at hg
        have := ih g0 hfm
        simp only [List.length_cons]
        omega

/-- The greedy clustering invariant: after processing indices `0..n`, the
groups partition exactly those indices, and there is one representative per
group. -/
theorem clusterInvariant (vecs : List (List Nat)) (n : Nat) :
    ((((List.range n).foldl (placeStep vecs) ([], [])).1.flatten).Perm
        (List.range n)) ∧
    (((List.range n).foldl (placeStep vecs) ([], [])).1.length =
      ((List.range n).foldl (placeStep vecs) ([], [])).2.length) := by
  induction n with
  | zero => exact ⟨List.Perm.refl _, rfl⟩
  | succ n ih =>
    obtain ⟨hperm, hlen⟩ := ih
    rw [List.range_succ, List.foldl_append]
    simp only [List.foldl_cons, List.foldl_nil]
    rw [placeStep]
    cases hmatch : firstMatch vecs (vecs.getD n [])
        ((List.range n).foldl (placeStep vecs) ([], [])).2 with
    | none =>
      constructor
      · simp only [List.flatten_append, List.flatten_cons, List.flatten_nil,
                   List.append_nil]
        exact hperm.append_right [n]
      · simp [hlen]
    | some g =>
      have hg2 : g < ((List.range n).foldl (placeStep vecs) ([], [])).2.length :=
        firstMatch_lt vecs _ _ g hmatch
      have hg1 : g < ((List.range n).foldl (placeStep vecs) ([], [])).1.length := by
        omega
      constructor
      · exact (pushAt_flatten_perm n _ g hg1).trans (hperm.append_right [n])
      · simp [pushAt_length, hlen]

theorem sum_map_div_helper (l : List (List Nat)) (c : ℚ) :
    (l.map (fun g => (g.length : ℚ) / c)).sum =
      ((l.map (fun g => (g.length : ℚ))).sum) / c := by
  induction l with
  | nil => simp
  | cons x xs ih => simp [ih, add_div]

/-- Claim C7: for every finals list `L`, the consensus groups form a
partition of the index set `[0..|L|)` (their concatenation is a permutation
of it), each score is the exact rational `|group| / max(|finals|, 1)`, and
the scores sum to 1 when `L` is nonempty. -/
theorem C7_consensus_partition (L : List String) :
    ((consensusCompute L).groups.flatten).Perm (List.range L.length) ∧
    (consensusCompute L).scores =
      (consensusCompute L).groups.map
        (fun g => (g.length : ℚ) / ((max L.length 1 : Nat) : ℚ)) ∧
    (L ≠ [] → (consensusCompute L).scores.sum = 1) := by
  have hvlen : (L.map (fun s => embedCounts s 128)).length = L.length := by simp
  obtain ⟨hperm, hlen⟩ :=
    clusterInvariant (L.map (fun s => embedCounts s 128))
      (L.map (fun s => embedCounts s 128)).length
  rw [hvlen] at hperm
  unfold consensusCompute
  dsimp only
  rw [hvlen]
  refine ⟨hperm, rfl, ?_⟩
  intro hL
  have hpos : 0 < L.length := List.length_pos.mpr hL
  rw [sum_map_div_helper]
  have hcast : ((((List.range L.length).foldl
        (placeStep (L.map (fun s => embedCounts s 128))) ([], [])).1.map
          (fun g => (g.length : ℚ))).sum) =
      (((((List.range L.length).foldl
        (placeStep (L.map (fun s => embedCounts s 128))) ([], [])).1.map
          List.length).sum : ℕ) : ℚ) := by
    rw [Nat.cast_list_sum, List.map_map]
    rfl
  rw [hcast]
  have hflat : ((((List.range L.length).foldl
        (placeStep (L.map (fun s => embedCounts s 128))) ([], [])).1.map
          List.length).sum) = L.length := by
    rw [← List.length_flatten]
    rw [hperm.length_eq, List.length_range]
  rw [hflat]
  have hmax : max L.length 1 = L.length := Nat.max_eq_left hpos
  rw [hmax]
  exact div_self (by positivity)

/-- Claim C7, witness: two finals, scores sum to 1. -/
theorem C7_witness : (consensusCompute ["ok", "ok"]).scores.sum = 1 :=
  (C7_consensus_partition ["ok", "ok"]).2.2 (by decide)

/-- Claim C3, witness: the amended characterization instantiated at a
concrete table, key and window. -/
theorem C3_witness :
    ((tBig.admitRequest "k" wTight 1 0).1 = true ↔
      ((tBig.entryOf "k").inflight < wTight.max_parallel ∧
       ((tBig.entryOf "k").tokens + 1) % 2 ^ 64 ≤ wTight.max_tokens ∧
       ((tBig.entryOf "k").usd + 0) % 2 ^ 64 ≤ wTight.max_usd_micros)) ∧
    ((tBig.admitRequest "k" wTight 1 0).1 = true →
      (tBig.admitRequest "k" wTight 1 0).2 "k" =
        some { inflight := ((tBig.entryOf "k").inflight + 1) % 2 ^ 32,
               tokens := ((tBig.entryOf "k").tokens + 1) % 2 ^ 64,
               usd := ((tBig.entryOf "k").usd + 0) % 2 ^ 64,
               last_backpressure := (tBig.entryOf "k").last_backpressure }) ∧
    ((tBig.admitRequest "k" wTight 1 0).1 = false →
      (tBig.admitRequest "k" wTight 1 0).2 "k" = some (tBig.entryOf "k")) :=
  C3_admit tBig "k" wTight 1 0
